import Mathlib

/-!
Verification of the Payslip-Splitter repository (source files `33OCR.py`,
`33.py`, `app.py`) against its natural-language specification.

The development shallowly embeds the pure core of the three Streamlit
applications:

* per-page text handling and the Hybrid OCR-fallback decision,
* grouping of page texts into payslip groups (`group_pages_by_payslip_from_texts`),
* metadata extraction from merged group text (`get_details_from_text`, in its
  `33OCR.py` and `33.py` variants),
* canonical-key / display-filename assembly (`split_and_rename_pdf_dynamic`),
* the duplicate-suppression pass over the session ledger,
* the bounded upload-retry loop, and
* the ledger-persistence behaviour of the upload sessions of `33OCR.py` and
  `app.py`.

Python regular-expression searches are embedded as explicit left-to-right
scanners over `List Char`.  `\w` is modelled as ASCII alphanumeric or `_`,
`\d` as ASCII digits and `\s` via `Char.isWhitespace`; the source texts the
programs handle are ASCII, where these agree with Python `re` semantics.
I/O (PDF parsing, the OCR engine, Google Drive) is modelled by passing the
extracted page texts, respectively success oracles for the remote sink, as
explicit arguments.
-/

/-! ### Character classes and generic scanning helpers -/

/-- ASCII model of Python's regex word class `\w`: alphanumeric or underscore. -/
def isWordChar (c : Char) : Bool :=
  c.isAlphanum || c == '_'

/-- Regex `\b` immediately before a word character: the previous character (if any)
must not be a word character. -/
def boundaryBefore : Option Char → Bool
  | none => true
  | some c => !isWordChar c

/-- Regex `\b` immediately after a word character: the next character (if any) must
not be a word character. -/
def boundaryAfter : List Char → Bool
  | [] => true
  | c :: _ => !isWordChar c

/-- Does `cs` start with the pattern `pat` (exact characters)?  Model of
Python `str.startswith`, used to build substring containment. -/
def startsWithSeq : List Char → List Char → Bool
  | [], _ => true
  | _ :: _, [] => false
  | p :: ps, c :: cs => p == c && startsWithSeq ps cs

/-- Substring containment on character lists: model of Python's `pat in s`. -/
def containsSeq (pat : List Char) : List Char → Bool
  | [] => pat.isEmpty
  | c :: rest => startsWithSeq pat (c :: rest) || containsSeq pat rest

/-- Left-to-right regex search for a pattern that begins with `\b` followed by
a word character: at each position, the match is attempted only when the
previous character is not a word character; on failure the scan advances one
character.  Model of Python `re.search` for the anchored patterns below. -/
def scanSearch (matchAt : List Char → Option α) : Option Char → List Char → Option α
  | _, [] => none
  | prev, c :: rest =>
    match (if boundaryBefore prev then matchAt (c :: rest) else none) with
    | some r => some r
    | none => scanSearch matchAt (some c) rest

/-- Left-to-right regex search for a pattern with no leading `\b`
(the `IPPIS\s*Number:\s*(\w+)` pattern of `33.py`). -/
def scanSearchNoBound (matchAt : List Char → Option α) : List Char → Option α
  | [] => none
  | c :: rest =>
    match matchAt (c :: rest) with
    | some r => some r
    | none => scanSearchNoBound matchAt rest

/-- Consume the literal `pat` case-insensitively (model of a literal inside a
`re.IGNORECASE` pattern); returns the rest of the input on success. -/
def stripCI : List Char → List Char → Option (List Char)
  | [], cs => some cs
  | _ :: _, [] => none
  | p :: ps, c :: cs => if p.toUpper == c.toUpper then stripCI ps cs else none

/-- Python `str.upper()` on the character list (`String.toUpper` restated
structurally so that it evaluates inside the kernel). -/
def upperChars (cs : List Char) : List Char :=
  cs.map Char.toUpper

/-- Python `str.strip()`: drop leading and trailing whitespace. -/
def pyStrip (cs : List Char) : List Char :=
  ((cs.dropWhile Char.isWhitespace).reverse.dropWhile Char.isWhitespace).reverse

/-- Python `len(s.strip())`, the quantity the Hybrid-mode decisions compare. -/
def stripLen (s : String) : Nat :=
  (pyStrip s.data).length

/-- Python `str.replace` for a non-empty pattern, scanning left to right
(`String.replace` restated with structural fuel recursion so that it
evaluates inside the kernel; `fuel` starts at the input length, which
suffices since every step consumes at least one character). -/
def replaceSeqAux (pat repl : List Char) : Nat → List Char → List Char
  | 0, cs => cs
  | _ + 1, [] => []
  | fuel + 1, c :: rest =>
    if startsWithSeq pat (c :: rest) && !pat.isEmpty then
      repl ++ replaceSeqAux pat repl fuel ((c :: rest).drop pat.length)
    else
      c :: replaceSeqAux pat repl fuel rest

/-- Python `str.replace` for a non-empty pattern. -/
def replaceSeq (pat repl cs : List Char) : List Char :=
  replaceSeqAux pat repl cs.length cs

/-- Python `sep.join(items)`. -/
def joinWith (sep : String) : List String → String
  | [] => ""
  | [s] => s
  | s :: rest => s ++ sep ++ joinWith sep rest

/-! ### The individual regex patterns of the source -/

/-- Match `\d{lo,hi}` at the current position with a trailing `\b`
(and, via `scanSearch`, a leading `\b`).  Because `\d{lo,hi}` is greedy and
every shorter attempt leaves a digit adjacent to the match, the pattern
matches exactly a maximal digit run whose length lies in `[lo, hi]`.
Used for `\b(\d{6})\b` (`33OCR.py`) and `\b(\d{6,10})\b` (`33.py`). -/
def matchDigitRunAt (lo hi : Nat) (cs : List Char) : Option (List Char) :=
  let run := cs.takeWhile Char.isDigit
  if lo ≤ run.length && run.length ≤ hi && boundaryAfter (cs.dropWhile Char.isDigit)
  then some run
  else none

/-- Match `20\d{2}` at the current position with a trailing `\b`: the year
pattern `\b(20\d{2})\b` shared by all variants. -/
def matchYearAt : List Char → Option String
  | '2' :: '0' :: d1 :: d2 :: rest =>
    if d1.isDigit && d2.isDigit && boundaryAfter rest
    then some (String.mk ['2', '0', d1, d2])
    else none
  | _ => none

/-- The three-letter month abbreviations, in the order of the regex
alternation `(JAN|FEB|MAR|APR|MAY|JUN|JUL|AUG|SEP|OCT|NOV|DEC)`. -/
def monthAbbrList : List String :=
  ["JAN", "FEB", "MAR", "APR", "MAY", "JUN", "JUL", "AUG", "SEP", "OCT", "NOV", "DEC"]

/-- Case-insensitively match one month abbreviation at the current position,
returning it upper-cased (the code upper-cases `group(1)` before the map
lookup) together with the rest of the input. -/
def matchAbbrAt : List Char → Option (String × List Char)
  | a :: b :: c :: rest =>
    let s := String.mk [a.toUpper, b.toUpper, c.toUpper]
    if monthAbbrList.contains s then some (s, rest) else none
  | _ => none

/-- After the abbreviation, `33OCR.py` allows `[\-\s]?\s*` and then requires
`(20\d{2})\b`.  The separator classes cannot consume a digit, so the greedy
match is deterministic. -/
def matchAbbrYearTail (cs : List Char) : Option String :=
  let cs1 :=
    match cs with
    | c :: rest => if c == '-' || c.isWhitespace then rest else cs
    | [] => []
  matchYearAt (cs1.dropWhile Char.isWhitespace)

/-- One position of `\b(JAN|…|DEC)[\-\s]?\s*(20\d{2})\b` (`33OCR.py`):
returns the upper-cased abbreviation and the year. -/
def matchAbbrDateAt (cs : List Char) : Option (String × String) :=
  (matchAbbrAt cs).bind fun (abbr, tail) =>
    (matchAbbrYearTail tail).map fun y => (abbr, y)

/-- One position of `\b(JAN|…|DEC)-\d{4}\b` (`33.py`): the hyphen is
mandatory and the year digits are arbitrary (and not captured); returns the
upper-cased abbreviation. -/
def matchAbbrHyphen4At (cs : List Char) : Option String :=
  (matchAbbrAt cs).bind fun (abbr, tail) =>
    match tail with
    | '-' :: d1 :: d2 :: d3 :: d4 :: rest =>
      if d1.isDigit && d2.isDigit && d3.isDigit && d4.isDigit && boundaryAfter rest
      then some abbr
      else none
    | _ => none

/-- The full month names, in the order of the regex alternation
`(January|February|…|December)`, upper-cased (matching is case-insensitive
and the code normalises `group(1)` before the map lookup, so only the
normalised name matters). -/
def monthFullList : List String :=
  ["JANUARY", "FEBRUARY", "MARCH", "APRIL", "MAY", "JUNE",
   "JULY", "AUGUST", "SEPTEMBER", "OCTOBER", "NOVEMBER", "DECEMBER"]

/-- One position of `\b(January|…|December)\s+(20\d{2})\b` (all variants):
returns the upper-cased month name and the year. -/
def matchFullDateAt (cs : List Char) : Option (String × String) :=
  monthFullList.findSome? fun name =>
    (stripCI name.data cs).bind fun tail =>
      match tail with
      | c :: rest =>
        if c.isWhitespace then
          (matchYearAt (rest.dropWhile Char.isWhitespace)).map fun y => (name, y)
        else none
      | [] => none

/-- One position of `IPPIS\s*Number:\s*(\w+)` with `re.IGNORECASE`
(`33.py`); `\w+` is greedy, so it takes the maximal word-character run. -/
def matchIppisLabelAt (cs : List Char) : Option (List Char) :=
  (stripCI "IPPIS".data cs).bind fun cs1 =>
    (stripCI "NUMBER:".data (cs1.dropWhile Char.isWhitespace)).bind fun cs3 =>
      let w := (cs3.dropWhile Char.isWhitespace).takeWhile isWordChar
      if w.isEmpty then none else some w

/-- Month lookup table shared by the variants: upper-cased abbreviation to
two-digit month code (`abbr_map` / `month_map` composed with the `.upper()`
the code performs on the captured group). -/
def abbrMonthMap (s : String) : Option String :=
  (monthAbbrList.zip ["01", "02", "03", "04", "05", "06",
                      "07", "08", "09", "10", "11", "12"]).lookup s

/-- Full-month lookup table: upper-cased name to two-digit month code
(`month_map` composed with the case normalisation the code performs on the
captured group — `.upper()` in `33OCR.py`, `.capitalize()` in `33.py`; both
agree with the upper-cased table on the twelve names). -/
def fullMonthMap (s : String) : Option String :=
  (monthFullList.zip ["01", "02", "03", "04", "05", "06",
                      "07", "08", "09", "10", "11", "12"]).lookup s

/-- A fully-resolved payslip record: the `{'year', 'month', 'ippis'}`
dictionary the extraction functions return.  The functions below return
`none` instead of any partial record. -/
structure PayslipDetails where
  year : String
  month : String
  ippis : String
deriving DecidableEq, Repr

/-! ### `33OCR.py` — the OCR-capable application -/

namespace Ocr

/-- Source `33OCR.py` line 294: `re.search(r'\b(\d{6})\b', merged_text)`. -/
def ippisSearch (cs : List Char) : Option (List Char) :=
  scanSearch (matchDigitRunAt 6 6) none cs

/-- The `(month, year)` pair computed by `get_details_from_text`
(`33OCR.py` lines 282–293): in `"Full OCR"` mode only the full-name pattern
is tried; otherwise the abbreviation pattern is tried first and the
full-name pattern is used as a fallback that also overrides the year. -/
def monthYear (ocr_mode : String) (cs : List Char) : Option String × Option String :=
  if ocr_mode = "Full OCR" then
    match scanSearch matchFullDateAt none cs with
    | some (name, y) => (fullMonthMap name, some y)
    | none => (none, none)
  else
    let first : Option String × Option String :=
      match scanSearch matchAbbrDateAt none cs with
      | some (abbr, y) => (abbrMonthMap abbr, some y)
      | none => (none, none)
    match first.1 with
    | some m => (some m, first.2)
    | none =>
      match scanSearch matchFullDateAt none cs with
      | some (name, y) => (fullMonthMap name, some y)
      | none => (none, first.2)

/-- Source `33OCR.py` lines 278–297, `get_details_from_text(merged_text, …, ocr_mode)`.
The `group_idx` parameter of the source is unused in its body and omitted.
The candidate strings are all non-empty, so Python truthiness of the three
values coincides with the `Option` pattern match. -/
def get_details_from_text (merged_text : String) (ocr_mode : String) : Option PayslipDetails :=
  if merged_text = "" then none
  else
    match (monthYear ocr_mode merged_text.data).2, (monthYear ocr_mode merged_text.data).1,
          ippisSearch merged_text.data with
    | some y, some m, some p => some ⟨y, m, String.mk p⟩
    | _, _, _ => none

/-- Source `33OCR.py` line 328. -/
def START_MARKER : String := "FEDERAL GOVERNMENT OF NIGERIA"

/-- Does a page text contain the start marker after upper-casing
(`START_MARKER in (text or "").upper()`, line 331)? -/
def containsMarker (text : String) : Bool :=
  containsSeq START_MARKER.data (upperChars text.data)

/-- The loop of `group_pages_by_payslip_from_texts` (`33OCR.py` lines
329–336), written as a recursion over the remaining page texts: `i` is the
index of the next page, `groups` the closed groups so far and `current` the
open group.  A marker page closes the (non-empty) open group and starts a
new one; a non-marker page extends the open group if there is one and is
otherwise dropped. -/
def groupScan : List String → Nat → List (List Nat) → List Nat → List (List Nat) × List Nat
  | [], _, groups, current => (groups, current)
  | t :: ts, i, groups, current =>
    if containsMarker t then
      groupScan ts (i + 1) (if current.isEmpty then groups else groups ++ [current]) [i]
    else if current.isEmpty then
      groupScan ts (i + 1) groups current
    else
      groupScan ts (i + 1) groups (current ++ [i])

/-- The `groups` list of `group_pages_by_payslip_from_texts` right after the
scan (`33OCR.py` lines 329–336): the closed groups, with the still-open
group appended if non-empty. -/
def groupsOf (page_texts : List String) : List (List Nat) :=
  let scan := groupScan page_texts 0 [] []
  if scan.2.isEmpty then scan.1 else scan.1 ++ [scan.2]

/-- Source `33OCR.py` lines 326–340, `group_pages_by_payslip_from_texts`: run the
scan, and fall back to one-page-per-group when no group was formed or a
single group spans every page. -/
def group_pages_by_payslip_from_texts (page_texts : List String) (pdf_num_pages : Nat) :
    List (List Nat) :=
  let groups := groupsOf page_texts
  if groups.isEmpty || (groups.length == 1 && (groups.headD []).length == pdf_num_pages) then
    (List.range pdf_num_pages).map fun i => [i]
  else
    groups

/-- The per-page Hybrid-mode OCR trigger (`33OCR.py` line 358):
`len(candidate.strip()) < 80 or not ("FEDERAL GOVERNMENT" in candidate.upper()
or re.search(r'\b(20\d{2})\b', candidate))`. -/
def hybridNeedsOcr (candidate : String) : Bool :=
  decide (stripLen candidate < 80) ||
    !(containsSeq "FEDERAL GOVERNMENT".data (upperChars candidate.data) ||
      (scanSearch matchYearAt none candidate.data).isSome)

/-- The per-page Hybrid-mode text choice (`33OCR.py` lines 358–361): when
the trigger fires, OCR runs and its text is kept iff its stripped length
strictly exceeds the embedded text's stripped length; `ocr_txt` is the text
the OCR engine would return for this page. -/
def hybridPageText (candidate ocr_txt : String) : String :=
  if hybridNeedsOcr candidate then
    if stripLen ocr_txt > stripLen candidate then ocr_txt else candidate
  else candidate

/-- The canonical key of a details-bearing group (`33OCR.py` line 379):
`f"{original_file_prefix}_{year}_{month}_{ippis}_{g_idx}"`. -/
def payslipKey (filePfx : String) (d : PayslipDetails) (g_idx : Nat) : String :=
  filePfx ++ "_" ++ d.year ++ "_" ++ d.month ++ "_" ++ d.ippis ++ "_" ++ toString g_idx

/-- The key of a group whose details are missing (`33OCR.py` line 383):
`f"{original_file_prefix}_no_details_group_{g_idx}"`. -/
def noDetailsKey (filePfx : String) (g_idx : Nat) : String :=
  filePfx ++ "_no_details_group_" ++ toString g_idx

/-- Python `naming_pattern.format(**details)` restricted to the three
placeholders the sidebar documents; `format`'s error behaviour on other
brace constructs is not modelled. -/
def formatPattern (naming_pattern : String) (d : PayslipDetails) : String :=
  String.mk (replaceSeq "{ippis}".data d.ippis.data
    (replaceSeq "{month}".data d.month.data
      (replaceSeq "{year}".data d.year.data naming_pattern.data)))

/-- The per-payslip record assembled by `split_and_rename_pdf_dynamic`
(`33OCR.py` lines 373–383), without the temp-file path. -/
structure ProcessedInfo where
  key : String
  filename : String
  status : String
  selected_for_upload : Bool
  upload_status_detail : String
deriving DecidableEq, Repr

/-- Processing of one page group (`33OCR.py` lines 368–383): merge the
group's texts, extract details, and build key, display filename, status and
selection flag. -/
def processGroup (filePfx naming_pattern ocr_mode : String) (page_texts : List String)
    (g_idx : Nat) (group : List Nat) : ProcessedInfo :=
  let merged := joinWith "\n" (group.map fun pg => page_texts.getD pg "")
  match get_details_from_text merged ocr_mode with
  | some d =>
    { key := payslipKey filePfx d g_idx
      filename := "[" ++ filePfx ++ "] " ++ formatPattern naming_pattern d ++ ".pdf"
      status := "Details Extracted"
      selected_for_upload := true
      upload_status_detail := "" }
  | none =>
    { key := noDetailsKey filePfx g_idx
      filename := "[" ++ filePfx ++ "] Payslip_Group_" ++ toString g_idx ++ "_missing_details.pdf"
      status := "Details Missing"
      selected_for_upload := false
      upload_status_detail := "" }

/-- Source `33OCR.py` lines 342–392, `split_and_rename_pdf_dynamic`, over the
already-extracted per-page texts (PDF parsing and the OCR engine are I/O;
the Hybrid per-page choice they feed is `hybridPageText`).  Group ordinals
`g_idx` start at 1 as in `enumerate(page_groups, start=1)`. -/
def split_and_rename_pdf_dynamic (page_texts : List String)
    (ocr_mode naming_pattern filePfx : String) : List ProcessedInfo :=
  let page_groups := group_pages_by_payslip_from_texts page_texts page_texts.length
  (List.enumFrom 1 page_groups).map fun p =>
    processGroup filePfx naming_pattern ocr_mode page_texts p.1 p.2

/-- The duplicate-suppression pass over the freshly processed items
(`33OCR.py` lines 481–489): a key already in the persistent log is marked
`Already uploaded` and deselected; items without extracted details are
deselected; everything else stays selected and `Pending`. -/
def markDuplicates (items : List ProcessedInfo) (uploaded_file_keys_log : List String) :
    List ProcessedInfo :=
  items.map fun item =>
    if uploaded_file_keys_log.contains item.key then
      { item with upload_status_detail := "Already uploaded", selected_for_upload := false }
    else if item.status ≠ "Details Extracted" then
      { item with upload_status_detail := "Pending", selected_for_upload := false }
    else
      { item with upload_status_detail := "Pending" }

/-- Source `33OCR.py` line 537: `MAX_RETRIES, RETRY_DELAY = 5, 2`. -/
def MAX_RETRIES : Nat := 5

/-- Source `33OCR.py` line 537. -/
def RETRY_DELAY : Nat := 2

/-- The capped exponential backoff (`33OCR.py` lines 582–583):
`wait_time = RETRY_DELAY * (2 ** (attempt - 1))`, capped at 30. -/
def boundedWait (attempt : Nat) : Nat :=
  let wait_time := RETRY_DELAY * 2 ^ (attempt - 1)
  if wait_time > 30 then 30 else wait_time

/-- The retry loop for one item (`33OCR.py` lines 561–591):
`for attempt in range(1, MAX_RETRIES + 1)`.  `sink attempt` tells whether
the transfer attempt numbered `attempt` succeeds.  Returns the number of
transfer attempts made, the backoff waits slept between attempts, and
whether the upload succeeded. -/
def uploadAttempts (sink : Nat → Bool) : Nat → Nat → Nat × List Nat × Bool
  | _, 0 => (0, [], false)
  | attempt, remaining + 1 =>
    if sink attempt then (1, [], true)
    else if remaining = 0 then (1, [], false)
    else
      let w := boundedWait attempt
      let r := uploadAttempts sink (attempt + 1) remaining
      (r.1 + 1, w :: r.2.1, r.2.2)

/-- One item's full retried upload: attempts start at 1 with
`MAX_RETRIES` iterations available. -/
def uploadItem (sink : Nat → Bool) : Nat × List Nat × Bool :=
  uploadAttempts sink 1 MAX_RETRIES

/-- The status fields the loop leaves on the item
(`33OCR.py` lines 566–567 and 589–590): on success the item is deselected;
on final failure it is marked `Final Failure (Retry needed)` and re-selected
for an explicit user retry. -/
def uploadOutcome (sink : Nat → Bool) : String × Bool :=
  if (uploadItem sink).2.2 then ("Uploaded", false)
  else ("Final Failure (Retry needed)", true)

end Ocr

/-! ### `33.py` — the text-only application -/

namespace Plain

/-- Source `33.py` line 194: `re.search(r'\b(20\d{2})\b', text)`, searched
independently of the month. -/
def yearSearch (cs : List Char) : Option String :=
  scanSearch matchYearAt none cs

/-- The `(month, year)` pair of `33.py` lines 194–219: the year is taken
from its own pattern; the month first from `\b(JAN|…|DEC)-\d{4}\b`, then
from the full-name pattern, which also supplies the year if it was still
missing. -/
def monthYear (cs : List Char) : Option String × Option String :=
  let year0 := yearSearch cs
  let month0 := (scanSearch matchAbbrHyphen4At none cs).bind abbrMonthMap
  match month0 with
  | some m => (some m, year0)
  | none =>
    match scanSearch matchFullDateAt none cs with
    | some (name, y) => (fullMonthMap name, if year0.isSome then year0 else some y)
    | none => (none, year0)

/-- The IPPIS number of `33.py` lines 222–231: the labelled pattern
`IPPIS\s*Number:\s*(\w+)` first, then the generic bounded run
`\b(\d{6,10})\b`. -/
def ippisSearch (cs : List Char) : Option (List Char) :=
  match scanSearchNoBound matchIppisLabelAt cs with
  | some w => some w
  | none => scanSearch (matchDigitRunAt 6 10) none cs

/-- Source `33.py` lines 191–242, `get_details_from_text(text)`.  The candidate
strings are all non-empty, so Python truthiness of the three values
coincides with the `Option` pattern match; the `ippis_number` field of the
source dictionary is the `ippis` field here. -/
def get_details_from_text (text : String) : Option PayslipDetails :=
  match (monthYear text.data).2, (monthYear text.data).1, ippisSearch text.data with
  | some y, some m, some p => some ⟨y, m, String.mk p⟩
  | _, _, _ => none

/-- The per-page canonical identity key of `33.py` line 264:
`f"{details['year']}_{details['month']}_{details['ippis_number']}"`. -/
def identityKey (d : PayslipDetails) : String :=
  d.year ++ "_" ++ d.month ++ "_" ++ d.ippis

end Plain

/-! ### `app.py` — the resumable-upload application -/

namespace App

/-- The progress-log loop of `app.py` lines 182–209 reduced to its ledger
effect: for each matched filename in order, a file already in the progress
log is skipped; otherwise one transfer is attempted (`sink f`), and on any
non-exception outcome the file is recorded in the progress log, which
`save_progress` writes to disk immediately (line 201) — so at every item
boundary the persisted log equals the returned list.  The per-file status
strings stored by the source are irrelevant to deduplication (only `in`
membership is tested) and are not modelled. -/
def processLoop : List String → (String → Option String) → List String → List String
  | [], _, processed => processed
  | f :: rest, sink, processed =>
    if processed.contains f then processLoop rest sink processed
    else
      match sink f with
      | some _ => processLoop rest sink (processed ++ [f])
      | none => processLoop rest sink processed

end App

/-! ### Ledger-persistence traces -/

/-- Observable events of an upload session: a successful transfer, a final
failure, and a durable write of the persistent ledger. -/
inductive LedgerEvent where
  | success (key : String)
  | failfinal (key : String)
  | persist (keys : List String)
deriving DecidableEq, Repr

/-- The ledger snapshots written durably during a trace. -/
def persistedSets (trace : List LedgerEvent) : List (List String) :=
  trace.filterMap fun e =>
    match e with
    | .persist ks => some ks
    | _ => none

namespace Ocr

/-- The keys of the selected items whose retried upload succeeds. -/
def sessionSuccessKeys (selected : List (String × (Nat → Bool))) : List String :=
  (selected.filter fun it => (uploadItem it.2).2.2).map fun it => it.1

/-- The upload session of `33OCR.py` lines 539–597 as a trace of ledger
events: each selected item (its key paired with its per-attempt sink
outcomes) is uploaded with retries; successful keys are added to an
in-memory copy of the ledger (`current_log_keys`, a set, modelled as the
initial list extended in success order), and only after the whole batch does
`update_or_create_log_file` write the ledger durably — one `persist` event,
emitted only if some upload succeeded (`log_update_needed`). -/
def uploadSession (selected : List (String × (Nat → Bool))) (ledger0 : List String) :
    List LedgerEvent :=
  let events := selected.map fun it =>
    if (uploadItem it.2).2.2 then LedgerEvent.success it.1 else LedgerEvent.failfinal it.1
  events ++
    (if (sessionSuccessKeys selected).isEmpty then []
     else [LedgerEvent.persist (ledger0 ++ sessionSuccessKeys selected)])

end Ocr

/-! ### Characterisation helpers used only in theorem statements -/

/-- The lengths of the maximal digit runs of a character list; `acc` is the
length of the run currently being read. -/
def digitRunLensAux : List Char → Nat → List Nat
  | [], acc => if acc = 0 then [] else [acc]
  | c :: cs, acc =>
    if c.isDigit then digitRunLensAux cs (acc + 1)
    else if acc = 0 then digitRunLensAux cs 0
    else acc :: digitRunLensAux cs 0

/-- The lengths of the maximal digit runs of a character list. -/
def digitRunLens (cs : List Char) : List Nat :=
  digitRunLensAux cs 0

/-- Digit-run lengths as seen from the middle of a scan: when the preceding
character was a digit the head of `cs` continues an earlier run, which is
skipped. -/
def digitRunLensFrom (prevDigit : Bool) (cs : List Char) : List Nat :=
  if prevDigit then digitRunLensAux (cs.dropWhile Char.isDigit) 0
  else digitRunLensAux cs 0

/-- Is the optional previous character a digit? -/
def isDigitOpt : Option Char → Bool
  | none => false
  | some c => c.isDigit

/-- The index of the first page text containing the start marker. -/
def firstMarkerIdx : List String → Option Nat
  | [] => none
  | t :: ts => if Ocr.containsMarker t then some 0 else (firstMarkerIdx ts).map (· + 1)

/-- The page index at which the groups returned by the grouping operation
start: the first marker page, or 0 when no page carries the marker. -/
def groupStartIdx (page_texts : List String) : Nat :=
  (firstMarkerIdx page_texts).getD 0

/-- Discriminator separating the two key shapes of `33OCR.py`: reading the
key from the right, after stripping the trailing ordinal digits there must
be an underscore, then exactly six digits (the IPPIS number), then another
underscore.  Detail-bearing keys satisfy it; `no_details` keys end in
`…group_{g_idx}` and do not. -/
def keyTailCheckChars (cs : List Char) : Bool :=
  match cs.reverse.dropWhile Char.isDigit with
  | '_' :: rest =>
    (rest.takeWhile Char.isDigit).length == 6 &&
      (match rest.drop 6 with
       | '_' :: _ => true
       | _ => false)
  | _ => false

/-- The check `keyTailCheckChars` on the string's characters. -/
def keyTailCheck (key : String) : Bool :=
  keyTailCheckChars key.data

/-! ### Helper lemmas -/

theorem uploadAttempts_fst_le (sink : Nat → Bool) :
    ∀ (attempt remaining : Nat), (Ocr.uploadAttempts sink attempt remaining).1 ≤ remaining := by
  intro attempt remaining
  induction remaining generalizing attempt with
  | zero => simp [Ocr.uploadAttempts]
  | succ r ih =>
    simp only [Ocr.uploadAttempts]
    split
    · simp
    · split
      · simp
      · simpa using Nat.succ_le_succ (ih (attempt + 1))

theorem boundedWait_le (attempt : Nat) : Ocr.boundedWait attempt ≤ 30 := by
  simp only [Ocr.boundedWait]
  split
  · exact Nat.le_refl 30
  · omega

theorem uploadAttempts_waits_le (sink : Nat → Bool) :
    ∀ (attempt remaining w : Nat), w ∈ (Ocr.uploadAttempts sink attempt remaining).2.1 → w ≤ 30 := by
  intro attempt remaining
  induction remaining generalizing attempt with
  | zero => simp [Ocr.uploadAttempts]
  | succ r ih =>
    intro w hw
    simp only [Ocr.uploadAttempts] at hw
    split at hw
    · simp at hw
    · split at hw
      · simp at hw
      · simp only [List.mem_cons] at hw
        rcases hw with h | h
        · exact h ▸ boundedWait_le attempt
        · exact ih (attempt + 1) w h

/-! ### Claim C3 — retry ceiling -/

/-- Claim C3: against a sink that fails on every attempt, one document's
upload makes exactly `MAX_RETRIES = 5` transfer attempts with the strictly
increasing backoffs 2, 4, 8, 16 (all bounded by 30) slept between them, does
not succeed, ends in the status `Final Failure (Retry needed)` and is
re-selected for an explicit user retry; for every sink the number of
attempts is bounded by `MAX_RETRIES` and every backoff is bounded by 30. -/
theorem C3_retry_ceiling (sink : Nat → Bool) :
    ((∀ a, sink a = false) →
      Ocr.uploadItem sink = (5, [2, 4, 8, 16], false) ∧
      List.Chain' (· < ·) (Ocr.uploadItem sink).2.1 ∧
      Ocr.uploadOutcome sink = ("Final Failure (Retry needed)", true)) ∧
    (Ocr.uploadItem sink).1 ≤ Ocr.MAX_RETRIES ∧
    (∀ w ∈ (Ocr.uploadItem sink).2.1, w ≤ 30) := by
  refine ⟨fun h => ?_, uploadAttempts_fst_le sink 1 Ocr.MAX_RETRIES,
    fun w hw => uploadAttempts_waits_le sink 1 Ocr.MAX_RETRIES w hw⟩
  have hit : Ocr.uploadItem sink = (5, [2, 4, 8, 16], false) := by
    simp [Ocr.uploadItem, Ocr.MAX_RETRIES, Ocr.uploadAttempts, h, Ocr.boundedWait,
      Ocr.RETRY_DELAY]
  refine ⟨hit, ?_, ?_⟩
  · rw [hit]
    norm_num [List.chain'_cons]
  · simp [Ocr.uploadOutcome, hit]

/-- Witness for C3 at the constantly failing sink. -/
theorem C3_retry_ceiling_witness :
    Ocr.uploadItem (fun _ => false) = (5, [2, 4, 8, 16], false) ∧
    List.Chain' (· < ·) (Ocr.uploadItem (fun _ => false)).2.1 ∧
    Ocr.uploadOutcome (fun _ => false) = ("Final Failure (Retry needed)", true) :=
  (C3_retry_ceiling (fun _ => false)).1 (fun _ => rfl)

/-! ### Claim C8 — Hybrid-mode OCR fallback -/

/-- Claim C8 counterexample: the claim's choice rule compares the candidate
texts' lengths, but the code compares their whitespace-stripped lengths.
For the embedded text `"aaaa"` and OCR text `"ab     "` the fallback is
triggered and the OCR text is strictly longer, yet the embedded text is
kept; for `"abc "` and `"abcd"` the raw lengths tie (which the claim says
favours the embedded text), yet the OCR text is kept. -/
theorem C8_counterexample :
    Ocr.hybridNeedsOcr "aaaa" = true ∧
    "ab     ".length > "aaaa".length ∧
    Ocr.hybridPageText "aaaa" "ab     " = "aaaa" ∧
    Ocr.hybridNeedsOcr "abc " = true ∧
    "abc ".length = "abcd".length ∧
    Ocr.hybridPageText "abc " "abcd" = "abcd" := by
  decide

/-- Claim C8 (amended): in Hybrid mode the OCR fallback for a page is
triggered exactly when the embedded text's stripped length is below 80, or
it both lacks the structural marker `FEDERAL GOVERNMENT` (after
upper-casing) and lacks a year-like `20\d{2}` token; when the fallback runs,
the OCR text is kept iff its *stripped* length strictly exceeds the embedded
text's *stripped* length (so ties on stripped length favour the embedded
text), and otherwise the embedded text is kept. -/
theorem C8_hybrid_fallback_amended (candidate ocr_txt : String) :
    (Ocr.hybridNeedsOcr candidate =
      (decide (stripLen candidate < 80) ||
        (!containsSeq "FEDERAL GOVERNMENT".data (upperChars candidate.data) &&
         !(scanSearch matchYearAt none candidate.data).isSome))) ∧
    (Ocr.hybridNeedsOcr candidate = true →
      Ocr.hybridPageText candidate ocr_txt =
        if stripLen ocr_txt > stripLen candidate then ocr_txt else candidate) ∧
    (Ocr.hybridNeedsOcr candidate = false →
      Ocr.hybridPageText candidate ocr_txt = candidate) := by
  refine ⟨?_, fun h => by simp [Ocr.hybridPageText, h], fun h => by simp [Ocr.hybridPageText, h]⟩
  simp [Ocr.hybridNeedsOcr, Bool.not_or]

/-- Witness for C8 at a 79-character-free page text. -/
theorem C8_hybrid_fallback_amended_witness :
    Ocr.hybridPageText "short text" "a much longer OCR result" =
      (if stripLen "a much longer OCR result" > stripLen "short text"
       then "a much longer OCR result" else "short text") :=
  (C8_hybrid_fallback_amended "short text" "a much longer OCR result").2.1 (by decide)

/-! ### Grouping lemmas -/

theorem join_map_singleton (l : List Nat) : (l.map fun i => ([i] : List Nat)).join = l := by
  induction l with
  | nil => rfl
  | cons x xs ih => simp [ih]

theorem groupScan_join_open (ts : List String) :
    ∀ (i : Nat) (gs : List (List Nat)) (cur : List Nat), cur ≠ [] →
      (Ocr.groupScan ts i gs cur).1.join ++ (Ocr.groupScan ts i gs cur).2 =
        gs.join ++ cur ++ List.range' i ts.length := by
  induction ts with
  | nil => intro i gs cur _; simp [Ocr.groupScan]
  | cons t ts ih =>
    intro i gs cur hcur
    have hne : cur.isEmpty = false := by
      cases cur with
      | nil => exact absurd rfl hcur
      | cons a l => rfl
    simp only [Ocr.groupScan, hne, Bool.false_eq_true, if_false, List.length_cons]
    split
    · rw [ih (i + 1) (gs ++ [cur]) [i] (by simp)]
      simp [List.range'_succ, List.append_assoc]
    · rw [ih (i + 1) gs (cur ++ [i]) (by simp)]
      simp [List.range'_succ, List.append_assoc]

theorem groupScan_join_closed (ts : List String) :
    ∀ (i : Nat) (gs : List (List Nat)),
      (Ocr.groupScan ts i gs []).1.join ++ (Ocr.groupScan ts i gs []).2 =
        gs.join ++ (match firstMarkerIdx ts with
                    | some k => List.range' (i + k) (ts.length - k)
                    | none => []) := by
  induction ts with
  | nil => intro i gs; simp [Ocr.groupScan, firstMarkerIdx]
  | cons t ts ih =>
    intro i gs
    simp only [Ocr.groupScan, List.isEmpty_nil, if_true, firstMarkerIdx, List.length_cons]
    split
    · rw [groupScan_join_open ts (i + 1) gs [i] (by simp)]
      simp [List.range'_succ, List.append_assoc]
    · rw [ih (i + 1) gs]
      cases hfm : firstMarkerIdx ts with
      | none => simp
      | some k =>
        simp only [Option.map_some']
        have h1 : i + 1 + k = i + (k + 1) := by omega
        have h2 : ts.length - k = ts.length + 1 - (k + 1) := by omega
        rw [h1, h2]

theorem groupScan_noMarker (ts : List String) :
    ∀ (i : Nat) (gs : List (List Nat)), (∀ t ∈ ts, Ocr.containsMarker t = false) →
      Ocr.groupScan ts i gs [] = (gs, []) := by
  induction ts with
  | nil => intro i gs _; rfl
  | cons t ts ih =>
    intro i gs hall
    simp only [Ocr.groupScan, hall t (by simp), Bool.false_eq_true, if_false,
      List.isEmpty_nil, if_true]
    exact ih (i + 1) gs fun u hu => hall u (by simp [hu])

theorem firstMarkerIdx_eq_none_iff (ts : List String) :
    firstMarkerIdx ts = none ↔ ∀ t ∈ ts, Ocr.containsMarker t = false := by
  induction ts with
  | nil => simp [firstMarkerIdx]
  | cons t ts ih =>
    simp only [firstMarkerIdx]
    split
    next hmk => simp [hmk]
    next hmk =>
      simp only [Option.map_eq_none', ih, List.mem_cons]
      constructor
      · intro hall u hu
        rcases hu with rfl | hu
        · exact Bool.eq_false_iff.mpr hmk
        · exact hall u hu
      · intro hall u hu
        exact hall u (Or.inr hu)

theorem firstMarkerIdx_lt_length (ts : List String) :
    ∀ k, firstMarkerIdx ts = some k → k < ts.length := by
  induction ts with
  | nil => intro k h; simp [firstMarkerIdx] at h
  | cons t ts ih =>
    intro k h
    simp only [firstMarkerIdx] at h
    split at h
    · cases h; simp
    · rcases Option.map_eq_some'.mp h with ⟨k', hk', rfl⟩
      simpa using Nat.succ_lt_succ (ih k' hk')

theorem groupsOf_join (page_texts : List String) :
    (Ocr.groupsOf page_texts).join =
      (match firstMarkerIdx page_texts with
       | some k => List.range' k (page_texts.length - k)
       | none => []) := by
  have hclosed := groupScan_join_closed page_texts 0 []
  simp only [List.join_nil, List.nil_append, Nat.zero_add] at hclosed
  simp only [Ocr.groupsOf]
  split
  next hemp =>
    rw [List.isEmpty_iff] at hemp
    rw [← hclosed, hemp, List.append_nil]
  next hemp =>
    rw [← hclosed]
    simp

theorem groupsOf_nil_of_noMarker (page_texts : List String)
    (hall : ∀ t ∈ page_texts, Ocr.containsMarker t = false) :
    Ocr.groupsOf page_texts = [] := by
  simp [Ocr.groupsOf, groupScan_noMarker page_texts 0 [] hall]

/-! ### Claim C1 — partition invariant of the grouping operation -/

/-- Claim C1 counterexample: with a non-marker first page followed by a
marker page, the grouping operation drops page 0 entirely — the returned
groups are `[[1]]`, so the page indices are not a partition of `[0, 2)`. -/
theorem C1_counterexample :
    Ocr.group_pages_by_payslip_from_texts ["", "FEDERAL GOVERNMENT OF NIGERIA"] 2 = [[1]] ∧
    0 ∉ (Ocr.group_pages_by_payslip_from_texts ["", "FEDERAL GOVERNMENT OF NIGERIA"] 2).join := by
  refine ⟨by decide, by decide⟩

/-- Claim C1 (amended): for a list of `N` page texts, the groups returned by
the grouping operation are contiguous, ascending and non-overlapping, and
their indices are exactly the interval `[j, N)` where `j` is the index of
the first page whose (upper-cased) text contains the start marker (`j = 0`
when no page does, via the one-page-per-group fallback): concatenating the
groups in order yields `j, j+1, …, N-1`, so every page index from `j`
upward lies in exactly one group, while the pages before the first marker
page are dropped. -/
theorem C1_partition_amended (page_texts : List String) (N : Nat)
    (h : page_texts.length = N) :
    (Ocr.group_pages_by_payslip_from_texts page_texts N).join =
      List.range' (groupStartIdx page_texts) (N - groupStartIdx page_texts) := by
  cases hm : firstMarkerIdx page_texts with
  | none =>
    have hg : Ocr.groupsOf page_texts = [] :=
      groupsOf_nil_of_noMarker _ ((firstMarkerIdx_eq_none_iff _).mp hm)
    simp [Ocr.group_pages_by_payslip_from_texts, hg, groupStartIdx, hm,
      join_map_singleton, List.range_eq_range']
  | some k =>
    have hk : k < N := h ▸ firstMarkerIdx_lt_length _ _ hm
    have hgj : (Ocr.groupsOf page_texts).join = List.range' k (N - k) := by
      rw [groupsOf_join, hm, h]
    simp only [groupStartIdx, hm, Option.getD_some]
    simp only [Ocr.group_pages_by_payslip_from_texts]
    split
    next hcond =>
      rcases Bool.or_eq_true_iff.mp hcond with hemp | hlen
      · rw [List.isEmpty_iff] at hemp
        rw [hemp] at hgj
        have : N - k = 0 := by
          have := congrArg List.length hgj
          simpa using this.symm
        omega
      · rcases Bool.and_eq_true_iff.mp hlen with ⟨h1, h2⟩
        rcases List.length_eq_one.mp (by simpa using h1) with ⟨g, hg⟩
        have hgN : g.length = N := by
          rw [hg] at h2
          simpa using h2
        have hjoin_g : g = List.range' k (N - k) := by
          rw [hg] at hgj
          simpa using hgj
        have hk0 : k = 0 := by
          have := congrArg List.length hjoin_g
          simp [hgN, List.length_range'] at this
          omega
        subst hk0
        simp [join_map_singleton, List.range_eq_range']
    next =>
      exact hgj

/-- Witness for C1 at a concrete two-page input whose second page carries
the marker. -/
theorem C1_partition_amended_witness :
    (Ocr.group_pages_by_payslip_from_texts ["", "FEDERAL GOVERNMENT OF NIGERIA"] 2).join =
      List.range' (groupStartIdx ["", "FEDERAL GOVERNMENT OF NIGERIA"])
        (2 - groupStartIdx ["", "FEDERAL GOVERNMENT OF NIGERIA"]) :=
  C1_partition_amended ["", "FEDERAL GOVERNMENT OF NIGERIA"] 2 rfl

/-! ### Claim C9 — fallback to singleton groups -/

/-- Claim C9: when no page's (upper-cased) text contains the marker string,
the grouping operation returns exactly `N` singleton groups, one per page,
in page order. -/
theorem C9_fallback_singletons (page_texts : List String) (N : Nat)
    (_hlen : page_texts.length = N)
    (hall : ∀ t ∈ page_texts, Ocr.containsMarker t = false) :
    Ocr.group_pages_by_payslip_from_texts page_texts N =
      (List.range N).map fun i => [i] := by
  have hg : Ocr.groupsOf page_texts = [] := groupsOf_nil_of_noMarker _ hall
  simp [Ocr.group_pages_by_payslip_from_texts, hg]

/-- Witness for C9 on three marker-free pages. -/
theorem C9_fallback_singletons_witness :
    Ocr.group_pages_by_payslip_from_texts ["a", "b", "c"] 3 =
      (List.range 3).map fun i => [i] :=
  C9_fallback_singletons ["a", "b", "c"] 3 rfl (by decide)

/-! ### Claim C6 — record validity -/

/-- Claim C6: metadata extraction never returns a partial record — whenever
`get_details_from_text` (in either variant) returns a record, all three
fields were actually found by the corresponding sub-searches — and on the
input `"...OCT-2023... 123456 ..."` (in the default Hybrid mode) it returns
exactly `{year := "2023", month := "10", ippis := "123456"}`. -/
theorem C6_record_validity :
    (∀ (text mode : String) (r : PayslipDetails),
      Ocr.get_details_from_text text mode = some r →
        (Ocr.monthYear mode text.data).2 = some r.year ∧
        (Ocr.monthYear mode text.data).1 = some r.month ∧
        Ocr.ippisSearch text.data = some r.ippis.data) ∧
    (∀ (text : String) (r : PayslipDetails),
      Plain.get_details_from_text text = some r →
        (Plain.monthYear text.data).2 = some r.year ∧
        (Plain.monthYear text.data).1 = some r.month ∧
        Plain.ippisSearch text.data = some r.ippis.data) ∧
    Ocr.get_details_from_text "...OCT-2023... 123456 ..." "Hybrid" =
      some ⟨"2023", "10", "123456"⟩ := by
  refine ⟨fun text mode r h => ?_, fun text r h => ?_, by decide⟩
  · unfold Ocr.get_details_from_text at h
    split at h
    · exact absurd h (by simp)
    · cases hy : (Ocr.monthYear mode text.data).2 with
      | none => rw [hy] at h; simp at h
      | some y =>
        cases hm : (Ocr.monthYear mode text.data).1 with
        | none => rw [hy, hm] at h; simp at h
        | some m =>
          cases hp : Ocr.ippisSearch text.data with
          | none => rw [hy, hm, hp] at h; simp at h
          | some p =>
            rw [hy, hm, hp] at h
            simp only [Option.some.injEq] at h
            subst h
            exact ⟨rfl, rfl, rfl⟩
  · unfold Plain.get_details_from_text at h
    cases hy : (Plain.monthYear text.data).2 with
    | none => rw [hy] at h; simp at h
    | some y =>
      cases hm : (Plain.monthYear text.data).1 with
      | none => rw [hy, hm] at h; simp at h
      | some m =>
        cases hp : Plain.ippisSearch text.data with
        | none => rw [hy, hm, hp] at h; simp at h
        | some p =>
          rw [hy, hm, hp] at h
          simp only [Option.some.injEq] at h
          subst h
          exact ⟨rfl, rfl, rfl⟩

/-- Witness for C6: the universally quantified part applied at the claim's
own example input. -/
theorem C6_record_validity_witness :
    (Ocr.monthYear "Hybrid" "...OCT-2023... 123456 ...".data).2 = some "2023" ∧
    (Ocr.monthYear "Hybrid" "...OCT-2023... 123456 ...".data).1 = some "10" ∧
    Ocr.ippisSearch "...OCT-2023... 123456 ...".data = some "123456".data :=
  C6_record_validity.1 "...OCT-2023... 123456 ..." "Hybrid" ⟨"2023", "10", "123456"⟩ (by decide)

/-! ### Claim C10 — Full OCR mode only recognises full month names -/

/-- Claim C10: in `"Full OCR"` mode the month and year are recognised only
from a full month name followed by a `20xx` year.  For every non-empty text
on which the full-name pattern finds nothing while the abbreviation pattern
(with a mapped month) and the six-digit identifier pattern both succeed —
e.g. a text whose only date token has the form `OCT-2023` — Full OCR mode
returns no record, while the `Normal` and `Hybrid` modes return the
complete record from the same text. -/
theorem C10_full_ocr_date_strictness (text : String) (a y m : String) (p : List Char)
    (hne : text ≠ "")
    (hfull : scanSearch matchFullDateAt none text.data = none)
    (habbr : scanSearch matchAbbrDateAt none text.data = some (a, y))
    (hmap : abbrMonthMap a = some m)
    (hippis : Ocr.ippisSearch text.data = some p) :
    Ocr.get_details_from_text text "Full OCR" = none ∧
    Ocr.get_details_from_text text "Normal" = some ⟨y, m, String.mk p⟩ ∧
    Ocr.get_details_from_text text "Hybrid" = some ⟨y, m, String.mk p⟩ := by
  unfold Ocr.get_details_from_text Ocr.monthYear
  simp [hne, hfull, habbr, hmap, hippis]

/-- Witness for C10 at the text `"OCT-2023 123456"`. -/
theorem C10_full_ocr_date_strictness_witness :
    Ocr.get_details_from_text "OCT-2023 123456" "Full OCR" = none ∧
    Ocr.get_details_from_text "OCT-2023 123456" "Normal" =
      some ⟨"2023", "10", String.mk "123456".data⟩ ∧
    Ocr.get_details_from_text "OCT-2023 123456" "Hybrid" =
      some ⟨"2023", "10", String.mk "123456".data⟩ :=
  C10_full_ocr_date_strictness "OCT-2023 123456" "OCT" "2023" "10" "123456".data
    (by decide) (by decide) (by decide) (by decide) (by decide)

/-! ### Digit-run lemmas for the identifier pattern -/

theorem isWordChar_of_isDigit {c : Char} (h : c.isDigit = true) : isWordChar c = true := by
  simp [isWordChar, Char.isAlphanum, h]

theorem digitRunLensAux_pos (cs : List Char) :
    ∀ acc, 0 < acc →
      digitRunLensAux cs acc =
        (acc + (cs.takeWhile Char.isDigit).length) :: digitRunLensAux (cs.dropWhile Char.isDigit) 0 := by
  induction cs with
  | nil =>
    intro acc hacc
    simp [digitRunLensAux, Nat.pos_iff_ne_zero.mp hacc]
  | cons c rest ih =>
    intro acc hacc
    by_cases hc : c.isDigit = true
    · rw [digitRunLensAux, if_pos hc, ih (acc + 1) (by omega),
        List.takeWhile_cons_of_pos hc, List.dropWhile_cons_of_pos hc]
      simp only [List.length_cons]
      congr 1
      omega
    · rw [digitRunLensAux, if_neg hc, if_neg (Nat.pos_iff_ne_zero.mp hacc),
        List.takeWhile_cons_of_neg hc, List.dropWhile_cons_of_neg hc]
      simp [digitRunLensAux, hc]

theorem digitRunLensFrom_cons (pd : Bool) (c : Char) (rest : List Char) :
    ∀ x, x ∈ digitRunLensFrom (c.isDigit) rest → x ∈ digitRunLensFrom pd (c :: rest) := by
  intro x hx
  by_cases hc : c.isDigit = true
  · rw [digitRunLensFrom, if_pos hc] at hx
    cases pd with
    | true =>
      rw [digitRunLensFrom, if_pos rfl, List.dropWhile_cons_of_pos hc]
      exact hx
    | false =>
      rw [digitRunLensFrom, if_neg (by simp), digitRunLensAux, if_pos hc,
        digitRunLensAux_pos rest 1 Nat.one_pos]
      exact List.mem_cons_of_mem _ hx
  · rw [digitRunLensFrom, if_neg (by simpa using hc)] at hx
    cases pd with
    | true =>
      rw [digitRunLensFrom, if_pos rfl, List.dropWhile_cons_of_neg hc]
      simpa [digitRunLensAux, hc] using hx
    | false =>
      rw [digitRunLensFrom, if_neg (by simp)]
      simpa [digitRunLensAux, hc] using hx

theorem scanSearch_digitRun_mem (cs : List Char) :
    ∀ (prev : Option Char) (r : List Char),
      scanSearch (matchDigitRunAt 6 6) prev cs = some r →
        6 ∈ digitRunLensFrom (isDigitOpt prev) cs := by
  induction cs with
  | nil => intro prev r h; simp [scanSearch] at h
  | cons c rest ih =>
    intro prev r h
    rw [scanSearch] at h
    cases hcur : (if boundaryBefore prev then matchDigitRunAt 6 6 (c :: rest) else none) with
    | some r' =>
      -- a match at the current position
      have hb : boundaryBefore prev = true := by
        by_contra hb
        rw [if_neg hb] at hcur
        exact Option.noConfusion hcur
      rw [if_pos hb] at hcur
      rw [matchDigitRunAt] at hcur
      split at hcur
      case isTrue hcond =>
        have h1 := Bool.and_eq_true_iff.mp hcond
        have h2 := Bool.and_eq_true_iff.mp h1.1
        have hle1 : 6 ≤ ((c :: rest).takeWhile Char.isDigit).length := of_decide_eq_true h2.1
        have hle2 : ((c :: rest).takeWhile Char.isDigit).length ≤ 6 := of_decide_eq_true h2.2
        have hlen6 : ((c :: rest).takeWhile Char.isDigit).length = 6 := le_antisymm hle2 hle1
        have hpd : isDigitOpt prev = false := by
          cases prev with
          | none => rfl
          | some d =>
            simp only [boundaryBefore, Bool.not_eq_true'] at hb
            simp only [isDigitOpt]
            cases hd : d.isDigit with
            | false => rfl
            | true => rw [isWordChar_of_isDigit hd] at hb; exact Bool.noConfusion hb
        have hc : c.isDigit = true := by
          by_contra hcne
          rw [List.takeWhile_cons_of_neg (by simpa using hcne)] at hlen6
          simp at hlen6
        rw [hpd, digitRunLensFrom, if_neg (by simp), digitRunLensAux, if_pos hc,
          digitRunLensAux_pos rest 1 Nat.one_pos]
        rw [List.takeWhile_cons_of_pos hc] at hlen6
        simp only [List.length_cons] at hlen6
        have h16 : 1 + (rest.takeWhile Char.isDigit).length = 6 := by omega
        rw [h16]
        exact List.mem_cons_self _ _
      case isFalse => exact Option.noConfusion hcur
    | none =>
      rw [hcur] at h
      simp only at h
      exact digitRunLensFrom_cons _ c rest 6 (ih (some c) r h)

/-! ### Claim C5 — identifier strictness -/

/-- Claim C5 counterexample: the claim also covers the `33.py` variant, but
there the fallback identifier pattern is `\b(\d{6,10})\b`.  On the text
`"OCT-2023 1234567"` every digit run has length other than 6 (the runs are
`2023` and `1234567`), yet extraction yields the identifier `"1234567"`
(the whole 7-digit run — though indeed never a 6-digit substring of it). -/
theorem C5_counterexample :
    (∀ l ∈ digitRunLens "OCT-2023 1234567".data, l ≠ 6) ∧
    Plain.get_details_from_text "OCT-2023 1234567" = some ⟨"2023", "10", "1234567"⟩ := by
  refine ⟨by decide, by decide⟩

/-- Claim C5 (amended): in the OCR variant (`33OCR.py`) the identifier
pattern `\b(\d{6})\b` matches only a maximal run of exactly six digits, so
for every input text whose maximal digit runs all have length other than 6
(for example a text containing `"1234567"`) extraction returns no record in
any mode — in particular it never returns `"123456"` or `"234567"` from a
7-digit run.  The `33.py` variant's fallback pattern instead accepts
bounded runs of 6–10 digits, so there the same text yields the full run as
identifier (see the counterexample), though still never a proper 6-digit
substring of a longer run. -/
theorem C5_identifier_strictness_amended (text mode : String)
    (hruns : ∀ l ∈ digitRunLens text.data, l ≠ 6) :
    Ocr.get_details_from_text text mode = none := by
  have hip : Ocr.ippisSearch text.data = none := by
    cases hp : Ocr.ippisSearch text.data with
    | none => rfl
    | some p =>
      have h6 : 6 ∈ digitRunLensFrom (isDigitOpt (none : Option Char)) text.data :=
        scanSearch_digitRun_mem text.data none p hp
      rw [digitRunLensFrom, if_neg (by simp [isDigitOpt])] at h6
      exact absurd rfl (hruns 6 h6)
  unfold Ocr.get_details_from_text
  split
  · rfl
  · rw [hip]
    cases (Ocr.monthYear mode text.data).2 <;> cases (Ocr.monthYear mode text.data).1 <;> simp

/-- Witness for C5 on a text containing a 7-digit run (plus a date). -/
theorem C5_identifier_strictness_amended_witness :
    Ocr.get_details_from_text "payslip 1234567 JAN-2023" "Hybrid" = none :=
  C5_identifier_strictness_amended "payslip 1234567 JAN-2023" "Hybrid" (by decide)

/-! ### Decimal-representation and list lemmas for the key shapes -/

theorem digitChar_isDigit (m : Nat) (h : m < 10) : (Nat.digitChar m).isDigit = true := by
  interval_cases m <;> decide

theorem toDigitsCore_digits (fuel : Nat) :
    ∀ (n : Nat) (ds : List Char), (∀ c ∈ ds, c.isDigit = true) →
      ∀ c ∈ Nat.toDigitsCore 10 fuel n ds, c.isDigit = true := by
  induction fuel with
  | zero => intro n ds hds; simpa [Nat.toDigitsCore] using hds
  | succ f ih =>
    intro n ds hds c hc
    simp only [Nat.toDigitsCore] at hc
    have hcons : ∀ x ∈ Nat.digitChar (n % 10) :: ds, x.isDigit = true := by
      intro x hx
      rcases List.mem_cons.mp hx with rfl | hx
      · exact digitChar_isDigit _ (Nat.mod_lt _ (by omega))
      · exact hds x hx
    split at hc
    · exact hcons c hc
    · exact ih (n / 10) _ hcons c hc

theorem toDigitsCore_ne_nil (fuel : Nat) :
    ∀ (n : Nat) (ds : List Char), ds ≠ [] → Nat.toDigitsCore 10 fuel n ds ≠ [] := by
  induction fuel with
  | zero => intro n ds h; simpa [Nat.toDigitsCore] using h
  | succ f ih =>
    intro n ds h
    simp only [Nat.toDigitsCore]
    split
    · simp
    · exact ih _ _ (by simp)

theorem toString_nat_data (n : Nat) : (toString n).data = Nat.toDigits 10 n := rfl

theorem natRepr_digits (n : Nat) : ∀ c ∈ (toString n).data, c.isDigit = true := by
  rw [toString_nat_data, Nat.toDigits]
  exact toDigitsCore_digits (n + 1) n [] (by simp)

theorem natRepr_ne_nil (n : Nat) : (toString n).data ≠ [] := by
  rw [toString_nat_data, Nat.toDigits]
  simp only [Nat.toDigitsCore]
  split
  · simp
  · exact toDigitsCore_ne_nil n (n / 10) _ (by simp)

theorem myDropWhile_append (p : Char → Bool) (xs ys : List Char)
    (h : ∀ x ∈ xs, p x = true) : (xs ++ ys).dropWhile p = ys.dropWhile p := by
  induction xs with
  | nil => rfl
  | cons x xs ih =>
    rw [List.cons_append, List.dropWhile_cons_of_pos (h x (by simp))]
    exact ih fun a ha => h a (by simp [ha])

theorem myTakeWhile_append (p : Char → Bool) (xs : List Char) (y : Char) (ys : List Char)
    (hall : ∀ x ∈ xs, p x = true) (hy : ¬ p y = true) :
    (xs ++ y :: ys).takeWhile p = xs := by
  induction xs with
  | nil => simp [List.takeWhile_cons_of_neg hy]
  | cons x xs ih =>
    rw [List.cons_append, List.takeWhile_cons_of_pos (hall x (by simp))]
    rw [ih fun a ha => hall a (by simp [ha])]

theorem keyTailCheckChars_record (pre ip G : List Char) (hip6 : ip.length = 6)
    (hipd : ∀ c ∈ ip, c.isDigit = true) (hGd : ∀ c ∈ G, c.isDigit = true) :
    keyTailCheckChars (pre ++ '_' :: (ip ++ '_' :: G)) = true := by
  have hrev : (pre ++ '_' :: (ip ++ '_' :: G)).reverse =
      G.reverse ++ '_' :: (ip.reverse ++ '_' :: pre.reverse) := by
    simp [List.reverse_append, List.reverse_cons, List.append_assoc]
  rw [keyTailCheckChars, hrev,
    myDropWhile_append _ _ _ (fun c hc => hGd c (List.mem_reverse.mp hc)),
    List.dropWhile_cons_of_neg (by decide)]
  show (((ip.reverse ++ '_' :: pre.reverse).takeWhile Char.isDigit).length == 6 &&
      (match (ip.reverse ++ '_' :: pre.reverse).drop 6 with
       | '_' :: _ => true
       | _ => false)) = true
  rw [myTakeWhile_append _ _ _ _ (fun c hc => hipd c (List.mem_reverse.mp hc)) (by decide)]
  have hl : ip.reverse.length = 6 := by rw [List.length_reverse, hip6]
  rw [← hl, List.drop_left, hl]
  simp

theorem keyTailCheckChars_noDetails (pre G : List Char)
    (hGd : ∀ c ∈ G, c.isDigit = true) :
    keyTailCheckChars (pre ++ "_no_details_group_".data ++ G) = false := by
  have hrev : (pre ++ "_no_details_group_".data ++ G).reverse =
      G.reverse ++ "_puorg_sliated_on_".data ++ pre.reverse := by
    have : "_no_details_group_".data.reverse = "_puorg_sliated_on_".data := by decide
    simp [List.reverse_append, ← this, List.append_assoc]
  have hlit : "_puorg_sliated_on_".data ++ pre.reverse =
      '_' :: 'p' :: 'u' :: 'o' :: 'r' :: 'g' ::
        ("_sliated_on_".data ++ pre.reverse) := rfl
  rw [keyTailCheckChars, hrev, List.append_assoc,
    myDropWhile_append _ _ _ (fun c hc => hGd c (List.mem_reverse.mp hc)), hlit,
    List.dropWhile_cons_of_neg (by decide)]
  show (((('p' : Char) :: 'u' :: 'o' :: 'r' :: 'g' :: ("_sliated_on_".data ++ pre.reverse)).takeWhile
      Char.isDigit).length == 6 &&
      (match (('p' : Char) :: 'u' :: 'o' :: 'r' :: 'g' :: ("_sliated_on_".data ++ pre.reverse)).drop 6 with
       | '_' :: _ => true
       | _ => false)) = false
  rw [List.takeWhile_cons_of_neg (by decide)]
  simp

/-! ### Claim C4 — canonical key assembly -/

theorem data_underscore : ("_" : String).data = ['_'] := rfl

/-- Claim C4 counterexample: the canonical key of `33OCR.py` is *not*
`"{year}_{month}_{identifier}_{groupOrdinal}"` — it is prefixed with the
(slugified) source file name, and is therefore not independent of the
source file's name: the same record and ordinal give different keys under
different file prefixes. -/
theorem C4_counterexample :
    Ocr.payslipKey "Payslip" ⟨"2023", "10", "123456"⟩ 1 ≠ "2023_10_123456_1" ∧
    Ocr.payslipKey "a" ⟨"2023", "10", "123456"⟩ 1 ≠
      Ocr.payslipKey "b" ⟨"2023", "10", "123456"⟩ 1 := by
  refine ⟨by decide, by decide⟩

/-- Claim C4 (amended): the canonical key assembled for a details-bearing
group equals `"{filePrefix}_{year}_{month}_{identifier}_{groupOrdinal}"` —
derived from the extracted record, the group ordinal *and the source file's
(slugified) name*, but independent of the display template; and (as the
claim states) the key of a record-less group, `…_no_details_group_…`, is
distinct from every record-derived key, whatever the prefixes and ordinals
involved.  (In the `33.py` variant the key is `"{year}_{month}_{ippis}"`,
with no ordinal suffix.) -/
theorem C4_canonical_key_amended :
    (∀ (filePfx pat1 pat2 ocr_mode : String) (page_texts : List String)
        (g_idx : Nat) (group : List Nat),
      (Ocr.processGroup filePfx pat1 ocr_mode page_texts g_idx group).key =
        (Ocr.processGroup filePfx pat2 ocr_mode page_texts g_idx group).key) ∧
    (∀ (filePfx : String) (d : PayslipDetails) (g_idx : Nat),
      Ocr.payslipKey filePfx d g_idx =
        filePfx ++ "_" ++ d.year ++ "_" ++ d.month ++ "_" ++ d.ippis ++ "_" ++
          toString g_idx) ∧
    (∀ (fp1 fp2 : String) (d : PayslipDetails) (g1 g2 : Nat),
      d.ippis.data.length = 6 → (∀ c ∈ d.ippis.data, c.isDigit = true) →
      Ocr.noDetailsKey fp1 g1 ≠ Ocr.payslipKey fp2 d g2) := by
  refine ⟨?_, fun _ _ _ => rfl, ?_⟩
  · intro filePfx pat1 pat2 ocr_mode page_texts g_idx group
    simp only [Ocr.processGroup]
    cases Ocr.get_details_from_text (joinWith "\n" (group.map fun pg => page_texts.getD pg ""))
        ocr_mode <;> rfl
  · intro fp1 fp2 d g1 g2 hip6 hipd heq
    have htrue : keyTailCheck (Ocr.payslipKey fp2 d g2) = true := by
      have hdata : (Ocr.payslipKey fp2 d g2).data =
          (fp2.data ++ '_' :: (d.year.data ++ '_' :: d.month.data)) ++
            '_' :: (d.ippis.data ++ '_' :: (toString g2).data) := by
        simp [Ocr.payslipKey, String.data_append, data_underscore, List.append_assoc]
      rw [keyTailCheck, hdata]
      exact keyTailCheckChars_record _ _ _ hip6 hipd (natRepr_digits g2)
    have hfalse : keyTailCheck (Ocr.noDetailsKey fp1 g1) = false := by
      have hdata : (Ocr.noDetailsKey fp1 g1).data =
          fp1.data ++ "_no_details_group_".data ++ (toString g1).data := by
        simp [Ocr.noDetailsKey, String.data_append]
      rw [keyTailCheck, hdata]
      exact keyTailCheckChars_noDetails _ _ (natRepr_digits g1)
    rw [heq, htrue] at hfalse
    exact Bool.noConfusion hfalse

/-- Witness for C4 at concrete prefixes, record and ordinals. -/
theorem C4_canonical_key_amended_witness :
    Ocr.noDetailsKey "f" 2 ≠ Ocr.payslipKey "g" ⟨"2023", "10", "123456"⟩ 1 :=
  C4_canonical_key_amended.2.2 "f" "g" ⟨"2023", "10", "123456"⟩ 2 1 (by decide) (by decide)

/-! ### Claim C2 — key independence from display naming -/

/-- Claim C2: changing the display naming template between two runs over the
same source changes no canonical key (nor any status or selection flag),
and duplicate suppression is decided exclusively by the canonical key: any
item whose key is in the persistent ledger is deselected by the
duplicate-suppression pass, so no key already in the ledger appears among
the items selected for upload — a template change cannot cause
re-delivery. -/
theorem C2_key_independence (page_texts : List String)
    (filePfx ocr_mode pat1 pat2 : String) (ledgerKeys : List String) :
    ((Ocr.split_and_rename_pdf_dynamic page_texts ocr_mode pat1 filePfx).map
        (fun it => (it.key, it.status, it.selected_for_upload)) =
      (Ocr.split_and_rename_pdf_dynamic page_texts ocr_mode pat2 filePfx).map
        (fun it => (it.key, it.status, it.selected_for_upload))) ∧
    (∀ it ∈ Ocr.markDuplicates
        (Ocr.split_and_rename_pdf_dynamic page_texts ocr_mode pat1 filePfx) ledgerKeys,
      ledgerKeys.contains it.key = true → it.selected_for_upload = false) ∧
    (∀ k, ledgerKeys.contains k = true →
      k ∉ ((Ocr.markDuplicates
          (Ocr.split_and_rename_pdf_dynamic page_texts ocr_mode pat1 filePfx)
          ledgerKeys).filter
          (fun it => it.selected_for_upload)).map (fun it => it.key)) := by
  have hmark : ∀ (items : List Ocr.ProcessedInfo),
      ∀ it ∈ Ocr.markDuplicates items ledgerKeys,
        ledgerKeys.contains it.key = true → it.selected_for_upload = false := by
    intro items it hit hkey
    simp only [Ocr.markDuplicates, List.mem_map] at hit
    rcases hit with ⟨x, _, rfl⟩
    by_cases hc : ledgerKeys.contains x.key = true
    · have hmem : x.key ∈ ledgerKeys := by simpa using hc
      simp [hmem]
    · rw [if_neg hc] at hkey ⊢
      split at hkey <;> simp_all
  refine ⟨?_, hmark _, ?_⟩
  · simp only [Ocr.split_and_rename_pdf_dynamic, List.map_map]
    apply List.map_congr_left
    intro p _
    simp only [Function.comp_apply, Ocr.processGroup]
    cases Ocr.get_details_from_text (joinWith "\n" (p.2.map fun pg => page_texts.getD pg ""))
        ocr_mode <;> rfl
  · intro k hk hmem
    rcases List.mem_map.mp hmem with ⟨it, hit, rfl⟩
    rcases List.mem_filter.mp hit with ⟨hit', hsel⟩
    have hfalse := hmark _ it hit' hk
    rw [hfalse] at hsel
    exact Bool.noConfusion hsel

/-- Witness for C2: a one-page run whose only key is already in the ledger
is not selected for upload. -/
theorem C2_key_independence_witness :
    "f_2023_01_123456_1" ∉
      ((Ocr.markDuplicates
          (Ocr.split_and_rename_pdf_dynamic
            ["FEDERAL GOVERNMENT OF NIGERIA JAN-2023 123456"] "Normal" "A" "f")
          ["f_2023_01_123456_1"]).filter
          (fun it => it.selected_for_upload)).map (fun it => it.key) :=
  (C2_key_independence ["FEDERAL GOVERNMENT OF NIGERIA JAN-2023 123456"] "f" "Normal" "A" "B"
      ["f_2023_01_123456_1"]).2.2 "f_2023_01_123456_1" (by decide)

/-! ### Claim C7 — durability of ledger writes -/

theorem processLoop_mono (files : List String) :
    ∀ (sink : String → Option String) (processed : List String) (f : String),
      f ∈ processed → f ∈ App.processLoop files sink processed := by
  induction files with
  | nil => intro sink procd f h; exact h
  | cons x rest ih =>
    intro sink procd f h
    rw [App.processLoop]
    split
    · exact ih sink procd f h
    · cases hx : sink x with
      | some s => exact ih _ _ f (List.mem_append_left _ h)
      | none => exact ih sink procd f h

theorem processLoop_persists (files : List String) :
    ∀ (sink : String → Option String) (processed : List String) (f : String),
      f ∈ files → (sink f).isSome = true → f ∈ App.processLoop files sink processed := by
  induction files with
  | nil => intro sink procd f h _; simp at h
  | cons x rest ih =>
    intro sink procd f hf hs
    rw [App.processLoop]
    rcases List.mem_cons.mp hf with rfl | hf
    · split
      next hin => exact processLoop_mono rest sink procd f (by simpa using hin)
      next hin =>
        cases hx : sink f with
        | none => rw [hx] at hs; simp at hs
        | some s => exact processLoop_mono rest sink _ f (by simp)
    · split
      · exact ih sink procd f hf hs
      · cases hx : sink x with
        | some s => exact ih _ _ f hf hs
        | none => exact ih sink procd f hf hs

/-- Claim C7 counterexample: in the upload session of `33OCR.py`, two
successful transfers happen with *no* durable ledger write between or right
after them — the single `persist` event comes only after the whole batch.
A run that stops after the first success (the trace prefix of length 2
even contains both successes) has persisted none of the delivered keys,
contradicting the claim that each key is written durably before the
delivery operation returns. -/
theorem C7_counterexample :
    (Ocr.uploadSession [("k1", fun _ => true), ("k2", fun _ => true)] []).take 2 =
      [LedgerEvent.success "k1", LedgerEvent.success "k2"] ∧
    persistedSets ((Ocr.uploadSession [("k1", fun _ => true), ("k2", fun _ => true)] []).take 2) =
      [] ∧
    Ocr.uploadSession [("k1", fun _ => true), ("k2", fun _ => true)] [] =
      [LedgerEvent.success "k1", LedgerEvent.success "k2", LedgerEvent.persist ["k1", "k2"]] := by
  refine ⟨by decide, by decide, by decide⟩

/-- Claim C7 (amended): in `33OCR.py` the successful keys are only
accumulated in memory during the batch and the persistent ledger is written
exactly once, after the whole batch (and not at all if nothing succeeded):
no prefix of the trace covering only the per-item uploads contains a
persist event, so a run stopping mid-batch has persisted none of that
batch's keys.  In `app.py`, by contrast, the progress log is saved
immediately after each successful transfer: for any item list (in
particular any prefix at which the run stops), every file whose transfer
succeeds is in the resulting persisted progress log. -/
theorem C7_ledger_persistence_amended :
    (∀ (selected : List (String × (Nat → Bool))) (ledger0 : List String),
      persistedSets (Ocr.uploadSession selected ledger0) =
        (if (Ocr.sessionSuccessKeys selected).isEmpty then []
         else [ledger0 ++ Ocr.sessionSuccessKeys selected]) ∧
      (∀ n ≤ selected.length,
        persistedSets ((Ocr.uploadSession selected ledger0).take n) = [])) ∧
    (∀ (files : List String) (sink : String → Option String) (processed0 : List String)
        (f : String), f ∈ files → (sink f).isSome = true →
      f ∈ App.processLoop files sink processed0) := by
  refine ⟨fun selected ledger0 => ⟨?_, ?_⟩, fun files sink p0 f hf hs =>
    processLoop_persists files sink p0 f hf hs⟩
  · simp only [Ocr.uploadSession, persistedSets, List.filterMap_append]
    have hev : (selected.map fun it =>
        if (Ocr.uploadItem it.2).2.2 then LedgerEvent.success it.1
        else LedgerEvent.failfinal it.1).filterMap
          (fun e => match e with | .persist ks => some ks | _ => none) = [] := by
      rw [List.filterMap_eq_nil]
      intro e he
      rcases List.mem_map.mp he with ⟨x, _, rfl⟩
      by_cases hs : (Ocr.uploadItem x.2).2.2 = true
      · simp only [if_pos hs]
      · simp only [if_neg hs]
    rw [hev, List.nil_append]
    split
    next h => simp [h]
    next h => simp [h]
  · intro n hn
    have hlen : n ≤ (selected.map fun it =>
        if (Ocr.uploadItem it.2).2.2 then LedgerEvent.success it.1
        else LedgerEvent.failfinal it.1).length := by
      simpa using hn
    rw [Ocr.uploadSession, List.take_append_of_le_length hlen, persistedSets,
      List.filterMap_eq_nil]
    intro e he
    have hmem := List.take_subset n _ he
    rcases List.mem_map.mp hmem with ⟨x, _, rfl⟩
    by_cases hs : (Ocr.uploadItem x.2).2.2 = true
    · simp only [if_pos hs]
    · simp only [if_neg hs]

/-- Witness for C7 at concrete sessions. -/
theorem C7_ledger_persistence_amended_witness :
    persistedSets ((Ocr.uploadSession [("k1", fun _ => true)] ["old"]).take 1) = [] ∧
    "b" ∈ App.processLoop ["a", "b"] (fun _ => some "uploaded") [] :=
  ⟨(C7_ledger_persistence_amended.1 [("k1", fun _ => true)] ["old"]).2 1 (by decide),
   C7_ledger_persistence_amended.2 ["a", "b"] (fun _ => some "uploaded") [] "b" (by decide) rfl⟩
